import Mathlib

/-!
Verification development for the PAMPy-NFC server (`ppnfc_server.py`).

The definitions below are a shallow embedding of the parts of the source
relevant to the frozen claims: the credential-store loader `load_encruids`,
the coordinator main loop (merge of listener snapshots, authentication
cache, per-client request state machine), the listener-side UID
sanitization of the serial and Chameleon listeners, and the
privilege-dropped client handler.

Conventions of the embedding:
* Python floats used as timestamps and waits are modelled as rationals.
* Python `None` is modelled with `Option`.
* The OS password-hash routine `crypt` is an external function; it is a
  parameter `cf : String → String → String` of every definition that
  calls it (first argument the UID, second the salt or stored hash).
* Raw reader bytes are ASCII (`b.decode("ascii")` in the source), so
  listener-side characters are modelled as their `Nat` code points.
-/

namespace PPNFC

/-- Association-list read, modelling Python `d[k]` / `k in d`. -/
def getA {α β : Type} [DecidableEq α] (k : α) : List (α × β) → Option β
  | [] => none
  | (k', v) :: t => if k' = k then some v else getA k t

/-- Association-list write, modelling Python `d[k] = v` (insertion order
preserved, new keys appended at the end). -/
def setA {α β : Type} [DecidableEq α] (k : α) (v : β) : List (α × β) → List (α × β)
  | [] => [(k, v)]
  | (k', v') :: t => if k' = k then (k, v) :: t else (k', v') :: setA k v t

/-- Association-list delete, modelling Python `del d[k]`. -/
def delA {α β : Type} [DecidableEq α] (k : α) : List (α × β) → List (α × β)
  | [] => []
  | (k', v') :: t => if k' = k then delA k t else (k', v') :: delA k t

/-- Association-list in-place update of an existing key, modelling Python
`d[k].field = v` statements; a missing key is left alone (the server only
ever updates pids it has previously inserted). -/
def modifyA {α β : Type} [DecidableEq α] (k : α) (f : β → β) : List (α × β) → List (α × β)
  | [] => []
  | (k', v') :: t => if k' = k then (k', f v') :: t else (k', v') :: modifyA k f t

/-! ## Credential store (`load_encruids`, lines 2242-2292) -/

/-- The in-memory credential store `encruids`: a list of
`(username, hashed_uid)` pairs. -/
abbrev Store := List (String × String)

/-- A Python value as read by `json.load`, as far as the shape validation
of `load_encruids` distinguishes it: a string, a list, or anything else. -/
inductive PyVal : Type
  | str (s : String)
  | list (l : List PyVal)
  | other

/-- Validation of one entry of the decoded JSON value: it must be a
2-element list of two strings (lines 2279-2287). -/
def validEntry : PyVal → Option (String × String)
  | .list [.str u, .str h] => some (u, h)
  | _ => none

/-- Shape validation of the decoded JSON value performed by
`load_encruids` (lines 2274-2287): a list whose every element passes
`validEntry`. -/
def validateEncruids : PyVal → Option Store
  | .list l => l.mapM validEntry
  | _ => none

/-- What the credential file looks like to one call of `load_encruids`:
`stat` fails, or the file has an mtime but reading / JSON-parsing fails,
or it reads and parses to a `PyVal` (whose shape may still be invalid). -/
inductive FileView : Type
  | absent
  | unreadable (mt : Nat)
  | readable (mt : Nat) (v : PyVal)

/-- The mtime carried by a `FileView`, when `stat` succeeds. -/
def FileView.mtime : FileView → Option Nat
  | .absent => none
  | .unreadable mt => some mt
  | .readable mt _ => some mt

/-- Result of `load_encruids`: `errorLoad` models `None`, `unchanged`
models `False`, `reloaded` models `True`. -/
inductive LoadResult : Type
  | errorLoad
  | unchanged
  | reloaded
  deriving DecidableEq

/-- Python truthiness of the global `encruids_file_mtime`
(`if not encruids_file_mtime:`): falsy when `None` or `0`. -/
def mtimeTruthy : Option Nat → Bool
  | none => false
  | some m => m != 0

/-- Shallow embedding of `load_encruids` (lines 2242-2292).  Input: the
current file view and the globals `encruids_file_mtime` and `encruids`;
output: the return value and the new values of the two globals. -/
def load_encruids (file : FileView) (mtime₀ : Option Nat) (encr₀ : Store) :
    LoadResult × Option Nat × Store :=
  match file with
  | .absent => (.errorLoad, mtime₀, [])
  | .unreadable mt =>
      if mtimeTruthy mtime₀ ∧ mt ≤ mtime₀.getD 0 then
        (.unchanged, mtime₀, encr₀)
      else
        (.errorLoad, if mtimeTruthy mtime₀ then mtime₀ else some mt, [])
  | .readable mt v =>
      if mtimeTruthy mtime₀ ∧ mt ≤ mtime₀.getD 0 then
        (.unchanged, mtime₀, encr₀)
      else
        match validateEncruids v with
        | none => (.errorLoad, if mtimeTruthy mtime₀ then mtime₀ else some mt, [])
        | some l => (.reloaded, some mt, l)

/-- The cases in which one call of `load_encruids` fails: `stat` fails,
or the file cannot be read / JSON-parsed, or its shape is invalid - in
the latter two cases provided the mtime check does not short-circuit the
call into `unchanged` first. -/
def loadFails (file : FileView) (mtime₀ : Option Nat) : Prop :=
  file = .absent ∨
    (∃ mt, file = .unreadable mt ∧ ¬(mtimeTruthy mtime₀ = true ∧ mt ≤ mtime₀.getD 0)) ∨
    (∃ mt v, file = .readable mt v ∧ validateEncruids v = none ∧
      ¬(mtimeTruthy mtime₀ = true ∧ mt ≤ mtime₀.getD 0))

/-! ## Coordinator data model (`main`, lines 2392-2790) -/

/-- The nine per-listener cached snapshots held by the main loop
(`active_pcsc_uids` ... `active_tcp_uids`, lines 2482-2490). -/
structure Snapshots : Type where
  pcsc : List String
  serial : List String
  hid : List String
  adb : List String
  pm3 : List String
  chameleon : List String
  ufr : List String
  http : List String
  tcp : List String
  deriving DecidableEq

/-- The nine listener backends. -/
inductive Listener : Type
  | pcsc | serial | hid | adb | pm3 | chameleon | ufr | http | tcp
  deriving DecidableEq

/-- Replace one listener's cached snapshot (lines 2514-2531). -/
def Snapshots.set (sn : Snapshots) (i : Listener) (uids : List String) : Snapshots :=
  match i with
  | .pcsc => { sn with pcsc := uids }
  | .serial => { sn with serial := uids }
  | .hid => { sn with hid := uids }
  | .adb => { sn with adb := uids }
  | .pm3 => { sn with pm3 := uids }
  | .chameleon => { sn with chameleon := uids }
  | .ufr => { sn with ufr := uids }
  | .http => { sn with http := uids }
  | .tcp => { sn with tcp := uids }

/-- Read one listener's cached snapshot. -/
def Snapshots.get (sn : Snapshots) : Listener → List String
  | .pcsc => sn.pcsc
  | .serial => sn.serial
  | .hid => sn.hid
  | .adb => sn.adb
  | .pm3 => sn.pm3
  | .chameleon => sn.chameleon
  | .ufr => sn.ufr
  | .http => sn.http
  | .tcp => sn.tcp

/-- Concatenation of all snapshots in the order of the source's `+`
chain (lines 2539-2543). -/
def Snapshots.allUids (sn : Snapshots) : List String :=
  sn.pcsc ++ sn.serial ++ sn.hid ++ sn.adb ++ sn.pm3 ++ sn.chameleon ++
    sn.ufr ++ sn.http ++ sn.tcp

/-- The empty snapshot table of a freshly started server. -/
def Snapshots.initial : Snapshots :=
  ⟨[], [], [], [], [], [], [], [], []⟩

/-- UID rewrite through `uids_translation_table` (lines 2536-2538):
`uids_translation_table[uid] if uid in uids_translation_table else uid`. -/
def translate (tbl : List (String × String)) (uid : String) : String :=
  match getA uid tbl with
  | some v => v
  | none => uid

/-- Deterministic model of Python's `list(set(sorted(l)))` (line 2535):
a canonical duplicate-free list with the same members.  The source's
result order is unspecified (hash order); every claim about the merged
list is a claim about its members, which this canonical form preserves. -/
def canonicalize (l : List String) : List String :=
  (l.insertionSort (· ≤ ·)).dedup

/-- The merged, translated, deduplicated active-UID list computed on
every listener update (lines 2535-2543). -/
def mergeActive (tbl : List (String × String)) (sn : Snapshots) : List String :=
  canonicalize (sn.allUids.map (translate tbl))

/-- The request held by a client session (the `*_REQUEST` constants). -/
inductive Request : Type
  | void
  | waitauth
  | adduser
  | deluser
  | watchnbuids
  | watchuids
  deriving DecidableEq

/-- One client session as held by the coordinator (`class client`,
lines 294-305, plus the fields assigned in `main`).  `request = none`
models the `None` assigned after a void-request timeout. -/
structure Client : Type where
  pw_name : String
  request : Option Request
  user : String
  expires : Option ℚ
  new_request : Bool
  deriving DecidableEq

/-- A message sent by the coordinator to a client handler through the
session pipe. -/
inductive OutMsg : Type
  | newClientAck
  | authResult (ok : Bool) (uids : Option (List String))
  | nbuidsUpdate (n : Nat) (delta : Int)
  | uidsUpdate (uids : List String)
  | encrUpdate (store : Store)
  | encrUpdateErrExists
  | encrUpdateErrNone
  | encrUpdateErrTimeout
  | voidRequestTimeout
  | clientHandlerStop
  deriving DecidableEq

/-- An inbox message of the coordinator (`main_in_q`). -/
inductive Msg : Type
  | keepalive
  | listenerUpdate (i : Listener) (uids : List String)
  | newClient (pid : Nat) (pw_name : String)
  | waitauthRequest (pid : Nat) (user : String) (wait : ℚ)
  | adduserRequest (pid : Nat) (user : String) (wait : ℚ)
  | deluserRequest (pid : Nat) (user : String) (wait : ℚ)
  | watchnbuidsRequest (pid : Nat)
  | watchuidsRequest (pid : Nat)
  | clientStopRequest (pid : Nat)
  deriving DecidableEq

/-- The mutable state of the coordinator main loop (lines 2482-2496
together with the globals `encruids` and `encruids_file_mtime`). -/
structure ServerState : Type where
  snaps : Snapshots
  active_uids : List String
  active_uids_prev : Option (List String)
  auth_cache : List (String × Bool)
  auth_uids_cache : List (String × List String)
  send_active_uids_update : Bool
  active_clients : List (Nat × Client)
  encruids : Store
  encruids_file_mtime : Option Nat
  deriving DecidableEq

/-- The coordinator state at server start. -/
def ServerState.initial : ServerState where
  snaps := Snapshots.initial
  active_uids := []
  active_uids_prev := none
  auth_cache := []
  auth_uids_cache := []
  send_active_uids_update := false
  active_clients := []
  encruids := []
  encruids_file_mtime := none

/-- Configuration values read by the main loop. -/
structure Config : Type where
  max_auth_request_wait : ℚ
  client_force_close_socket_timeout : ℚ
  uids_translation_table : List (String × String)

/-- The matching UIDs computed by the fresh (cache-miss) branch of a
WAITAUTH request (lines 2658-2663): for each active UID in order, one
copy of the UID per credential entry for the requested user whose stored
hash verifies against it. -/
def computeAuthUids (cf : String → String → String) (encr : Store) (user : String)
    (active : List String) : List String :=
  active.flatMap fun uid =>
    encr.filterMap fun e =>
      if e.1 = user ∧ cf uid e.2 = e.2 then some uid else none

/-- Python `expires == None or msg_tstamp >= expires` (lines 2752-2753
and 2767-2768). -/
def expiredB (now : ℚ) : Option ℚ → Bool
  | none => true
  | some t => now ≥ t

/-- Python `msg_tstamp >= expires` at line 2778, reached only for void
requests whose `expires` is always set; `none` is mapped to `false`. -/
def voidExpiredB (now : ℚ) : Option ℚ → Bool
  | none => false
  | some t => now ≥ t

/-- Result of running one client through the per-event session loop. -/
structure ClientStep : Type where
  client : Client
  cache : List (String × Bool)
  uidsCache : List (String × List String)
  out : List OutMsg
  deriving DecidableEq

/-- One iteration of the per-client loop of the main routine
(lines 2619-2780) for a single client: the watch updates, the
WAITAUTH / ADDUSER / DELUSER branches (skipped on keepalive), then the
terminal authentication-result, add/del-timeout and void-timeout
checks.  `salt` is the value of `mksalt()` for this client, `cf` the
external `crypt`. -/
def processClient (cfg : Config) (cf : String → String → String) (salt : String)
    (isKeepalive : Bool) (now : ℚ) (active_uids : List String)
    (active_uids_prev : Option (List String)) (send_update : Bool) (encr : Store)
    (cache : List (String × Bool)) (uidsCache : List (String × List String))
    (c : Client) : ClientStep :=
  let fct := cfg.client_force_close_socket_timeout
  -- phase 1: non-keepalive request processing (lines 2625-2744)
  let step1 : Client × List (String × Bool) × List (String × List String) ×
      List OutMsg × Bool × List String :=
    if isKeepalive then (c, cache, uidsCache, [], false, [])
    else
      -- WATCHNBUIDS update (lines 2629-2633)
      let outA : List OutMsg :=
        if c.request = some .watchnbuids ∧ send_update = true ∧
            active_uids_prev ≠ none ∧
            active_uids.length ≠ (active_uids_prev.getD []).length then
          [.nbuidsUpdate active_uids.length
            ((active_uids.length : Int) - ((active_uids_prev.getD []).length : Int))]
        else []
      -- WATCHUIDS update (lines 2637-2643)
      if c.request = some .watchuids ∧ active_uids_prev ≠ none ∧
          (c.new_request = true ∨
            (active_uids_prev ≠ some active_uids ∧ send_update = true)) then
        ({ c with new_request := false }, cache, uidsCache,
          outA ++ [.uidsUpdate active_uids], false, [])
      -- WAITAUTH computation (lines 2646-2671)
      else if c.request = some .waitauth then
        match getA c.user cache with
        | some a =>
            (c, cache, uidsCache, outA, a, (getA c.user uidsCache).getD [])
        | none =>
            let uids := computeAuthUids cf encr c.user active_uids
            let a := decide (uids ≠ [])
            (c, setA c.user a cache, setA c.user uids uidsCache, outA, a, uids)
      -- ADDUSER with exactly one active UID (lines 2675-2708)
      else if c.request = some .adduser ∧ active_uids.length = 1 then
        let uid0 := active_uids.headD ""
        if encr.any fun e => decide (e.1 = c.user ∧ cf uid0 e.2 = e.2) then
          ({ c with request := some .void, expires := some (now + fct) },
            cache, uidsCache, outA ++ [.encrUpdateErrExists], false, [])
        else
          ({ c with request := some .void, expires := some (now + fct) },
            cache, uidsCache,
            outA ++ [.encrUpdate (encr ++ [(c.user, cf uid0 salt)])], false, [])
      -- DELUSER with no expiry (delete-all) or exactly one active UID
      -- (lines 2713-2744)
      else if c.request = some .deluser ∧
          (c.expires = none ∨ active_uids.length = 1) then
        let uid0 := active_uids.headD ""
        let hit : String × String → Bool := fun e =>
          decide (e.1 = c.user ∧ (c.expires = none ∨ cf uid0 e.2 = e.2))
        let newStore := encr.filter fun e => !(hit e)
        let outB : List OutMsg :=
          if encr.any hit then [.encrUpdate newStore] else [.encrUpdateErrNone]
        ({ c with request := some .void, expires := some (now + fct) },
          cache, uidsCache, outA ++ outB, false, [])
      else
        (c, cache, uidsCache, outA, false, [])
  let c1 := step1.1
  let cache1 := step1.2.1
  let uidsCache1 := step1.2.2.1
  let out1 := step1.2.2.2.1
  let auth := step1.2.2.2.2.1
  let auth_uids := step1.2.2.2.2.2
  -- phase 2: terminal WAITAUTH reply (lines 2751-2760)
  let step2 : Client × List OutMsg :=
    if c1.request = some .waitauth ∧ (auth = true ∨ expiredB now c1.expires = true) then
      ({ c1 with request := some .void, expires := some (now + fct) },
        [.authResult auth
          (if auth = true ∧ c1.user = c1.pw_name then some auth_uids else none)])
    else (c1, [])
  let c2 := step2.1
  let out2 := step2.2
  -- phase 3: add/del timeout, else void timeout (lines 2765-2780)
  let step3 : Client × List OutMsg :=
    if (c2.request = some .adduser ∨ c2.request = some .deluser) ∧
        expiredB now c2.expires = true then
      ({ c2 with request := some .void, expires := some (now + fct) },
        [.encrUpdateErrTimeout])
    else if c2.request = some .void ∧ voidExpiredB now c2.expires = true then
      ({ c2 with request := none }, [.voidRequestTimeout])
    else (c2, [])
  ⟨step3.1, cache1, uidsCache1, out1 ++ out2 ++ step3.2⟩

/-- The expiry assigned to a WAITAUTH / ADDUSER / DELUSER request
(lines 2579-2581): `None` for a negative wait, otherwise the message
timestamp plus the wait capped at `max_auth_request_wait`. -/
def requestExpiry (cfg : Config) (now w : ℚ) : Option ℚ :=
  if w < 0 then none
  else some (now + (if w ≤ cfg.max_auth_request_wait then w
    else cfg.max_auth_request_wait))

/-- The per-message dispatch at the top of the main loop (lines
2505-2610): listener snapshot replacement and merge, new-client
insertion, request replacement, stop handling.  Returns the updated
state together with the immediate replies (only `NEW_CLIENT_ACK` and
`CLIENT_HANDLER_STOP` are sent here). -/
def applyMsg (cfg : Config) (now : ℚ) (s : ServerState) (m : Msg) :
    ServerState × List (Nat × OutMsg) :=
  match m with
  | .keepalive => (s, [])
  | .listenerUpdate i uids =>
      let snaps' := s.snaps.set i uids
      let active_uids_new := mergeActive cfg.uids_translation_table snaps'
      if active_uids_new ≠ s.active_uids then
        ({ s with
            snaps := snaps'
            active_uids := active_uids_new
            active_uids_prev := some s.active_uids
            send_active_uids_update := true }, [])
      else
        ({ s with snaps := snaps' }, [])
  | .newClient pid pw =>
      let c : Client :=
        { pw_name := pw, request := some .void, user := "",
          expires := some (now + cfg.client_force_close_socket_timeout),
          new_request := true }
      ({ s with active_clients := setA pid c s.active_clients },
        [(pid, .newClientAck)])
  | .waitauthRequest pid u w =>
      let upd : Client → Client := fun c =>
        { c with
            request := some .waitauth
            user := u
            expires := requestExpiry cfg now w }
      ({ s with active_clients := modifyA pid upd s.active_clients }, [])
  | .adduserRequest pid u w =>
      let upd : Client → Client := fun c =>
        { c with
            request := some .adduser
            user := u
            expires := requestExpiry cfg now w }
      ({ s with active_clients := modifyA pid upd s.active_clients }, [])
  | .deluserRequest pid u w =>
      let upd : Client → Client := fun c =>
        { c with
            request := some .deluser
            user := u
            expires := requestExpiry cfg now w }
      ({ s with active_clients := modifyA pid upd s.active_clients }, [])
  | .watchnbuidsRequest pid =>
      let upd : Client → Client := fun c =>
        { c with request := some .watchnbuids, user := "", expires := none }
      ({ s with active_clients := modifyA pid upd s.active_clients }, [])
  | .watchuidsRequest pid =>
      let upd : Client → Client := fun c =>
        { c with request := some .watchuids, user := "", expires := none }
      ({ s with active_clients := modifyA pid upd s.active_clients }, [])
  | .clientStopRequest pid =>
      ({ s with active_clients := delA pid s.active_clients },
        [(pid, .clientHandlerStop)])

/-- Python truthiness of the value returned by `load_encruids()` at line
2614: `True` (reloaded) is truthy, `False` (unchanged) and `None`
(error) are falsy. -/
def loadTruthy : LoadResult → Bool
  | .reloaded => true
  | .unchanged => false
  | .errorLoad => false

/-- The per-client loop `for cpid in active_clients` (lines 2619-2780),
threading the authentication caches through the clients in table order
and collecting the messages sent to each handler. -/
def foldClients (cfg : Config) (cf : String → String → String)
    (salts : Nat → String) (isKeepalive : Bool) (now : ℚ)
    (active_uids : List String) (active_uids_prev : Option (List String))
    (send_update : Bool) (encr : Store) :
    List (Nat × Client) → List (String × Bool) → List (String × List String) →
      List (Nat × Client) × List (String × Bool) × List (String × List String) ×
        List (Nat × OutMsg)
  | [], cache, uidsCache => ([], cache, uidsCache, [])
  | (pid, c) :: t, cache, uidsCache =>
      let r := processClient cfg cf (salts pid) isKeepalive now active_uids
        active_uids_prev send_update encr cache uidsCache c
      let rest := foldClients cfg cf salts isKeepalive now active_uids
        active_uids_prev send_update encr t r.cache r.uidsCache
      ((pid, r.client) :: rest.1, rest.2.1, rest.2.2.1,
        r.out.map (fun o => (pid, o)) ++ rest.2.2.2)

/-- One full turn of the coordinator main loop on one inbox message
(lines 2498-2784): dispatch the message, reload the credential store and
wipe the authentication caches if the reload reported `True` or the
active-UID list changed, run every client's session step, and finally
clear `send_active_uids_update` unless the message was a keepalive.
`file` is how the credential file looks during this turn, `salts pid`
the salt `mksalt()` would produce for client `pid`. -/
def processEvent (cfg : Config) (cf : String → String → String)
    (salts : Nat → String) (file : FileView) (now : ℚ) (s : ServerState)
    (m : Msg) : ServerState × List (Nat × OutMsg) :=
  let isKeepalive := decide (m = .keepalive)
  let d := applyMsg cfg now s m
  let s1 := d.1
  let lr := load_encruids file s1.encruids_file_mtime s1.encruids
  let wipe := loadTruthy lr.1 || s1.send_active_uids_update
  let s2 := { s1 with
    encruids_file_mtime := lr.2.1
    encruids := lr.2.2
    auth_cache := if wipe then [] else s1.auth_cache
    auth_uids_cache := if wipe then [] else s1.auth_uids_cache }
  let f := foldClients cfg cf salts isKeepalive now s2.active_uids
    s2.active_uids_prev s2.send_active_uids_update s2.encruids
    s2.active_clients s2.auth_cache s2.auth_uids_cache
  let s3 := { s2 with
    active_clients := f.1
    auth_cache := f.2.1
    auth_uids_cache := f.2.2.1
    send_active_uids_update :=
      if isKeepalive then s2.send_active_uids_update else false }
  (s3, d.2 ++ f.2.2.2)

/-- One inbox delivery as seen by the coordinator: the wall-clock
timestamp taken when the message is dequeued, the state of the
credential file during the turn, the salts `mksalt()` would produce,
and the message itself. -/
structure Event : Type where
  now : ℚ
  file : FileView
  salts : Nat → String
  msg : Msg

/-- Run the coordinator over a sequence of inbox deliveries. -/
def runEvents (cfg : Config) (cf : String → String → String)
    (s : ServerState) : List Event → ServerState
  | [] => s
  | e :: t => runEvents cfg cf (processEvent cfg cf e.salts e.file e.now s e.msg).1 t

/-- The most recent snapshot delivered by each listener over a sequence
of inbox deliveries, starting from snapshot table `sn`. -/
def latestSnaps (sn : Snapshots) : List Event → Snapshots
  | [] => sn
  | e :: t =>
      latestSnaps (match e.msg with
        | .listenerUpdate i uids => sn.set i uids
        | _ => sn) t

/-! ## Listener-side UID sanitization (serial listener, lines 442-576;
Chameleon listener, lines 1192-1436).  Reader bytes are ASCII, so
characters are modelled as their `Nat` code points. -/

/-- ASCII model of Python `str.upper` on one character. -/
def pyUpperN (c : Nat) : Nat :=
  if 97 ≤ c ∧ c ≤ 122 then c - 32 else c

/-- The code points of Python's `string.hexdigits`
(`"0123456789abcdefABCDEF"`). -/
def hexdigitsN : List Nat :=
  [48, 49, 50, 51, 52, 53, 54, 55, 56, 57,
   97, 98, 99, 100, 101, 102, 65, 66, 67, 68, 69, 70]

/-- The code points of the uppercase hexadecimal characters
`"0123456789ABCDEF"`. -/
def upperHexN : List Nat :=
  [48, 49, 50, 51, 52, 53, 54, 55, 56, 57, 65, 66, 67, 68, 69, 70]

/-- The serial listener's UID sanitization (line 531):
`"".join([c for c in l.upper() if c in hexdigits])`. -/
def serial_sanitize (l : List Nat) : List Nat :=
  (l.map pyUpperN).filter (· ∈ hexdigitsN)

/-- One character of the regex class `[0-9a-zA-Z]` used by the Chameleon
listener at line 1377. -/
def pyIsAlnumN (c : Nat) : Bool :=
  decide ((48 ≤ c ∧ c ≤ 57) ∨ (97 ≤ c ∧ c ≤ 122) ∨ (65 ≤ c ∧ c ≤ 90))

/-- The Chameleon listener's UID extraction in reader state 10 (lines
1377-1378): a whole line matching `^[0-9a-zA-Z]+$` is uppercased and
taken as the UID, without removing non-hexadecimal characters. -/
def chameleon_uid_of_line (l : List Nat) : Option (List Nat) :=
  if l ≠ [] ∧ l.all pyIsAlnumN then some (l.map pyUpperN) else none

/-- Membership in the uppercase hexadecimal alphabet, as a Boolean. -/
def isUpperHexN (c : Nat) : Bool :=
  decide (c ∈ upperHexN)

/-- An uppercase alphanumeric code point (a digit or an uppercase
letter), as a Boolean. -/
def isUpperAlnumN (c : Nat) : Bool :=
  decide ((48 ≤ c ∧ c ≤ 57) ∨ (65 ≤ c ∧ c ≤ 90))

/-- The line-assembly loop shared (up to the line-break set and the
printability test) by the serial listener (lines 503-510), the Chameleon
listener (lines 1292-1299) and the client handler: characters are
appended to `buf` only while `len(buf) < 256` and `keep c` holds
(printability, and for the Chameleon also `c != '\r'`), and each
line-break character flushes `buf` as one line.  Returns the finished
lines and the leftover buffer. -/
def accumLines (isBreak : Nat → Bool) (keep : Nat → Bool) :
    List Nat → List Nat → List (List Nat) × List Nat
  | [], buf => ([], buf)
  | c :: cs, buf =>
      if isBreak c then
        (buf :: (accumLines isBreak keep cs []).1,
          (accumLines isBreak keep cs []).2)
      else if buf.length < 256 ∧ keep c = true then
        accumLines isBreak keep cs (buf ++ [c])
      else
        accumLines isBreak keep cs buf

/-! ## Client handler privilege drop and credential-file write
(`client_handler`, lines 2010-2151; `write_encruids`, lines 2295-2305). -/

/-- The process credentials of the client-handler process. -/
structure OsState : Type where
  euid : Nat
  egid : Nat
  groups : List Nat
  umask : Nat
  deriving DecidableEq

/-- The credentials the handler starts with: the server runs as root. -/
def rootOs : OsState where
  euid := 0
  egid := 0
  groups := [0]
  umask := 0o022

/-- The privilege drop performed by `client_handler` before it serves a
single byte (lines 2023-2027): `os.setgroups(os.getgrouplist(pw_name,
gid)); os.setgid(gid); os.setuid(uid); os.umask(0o057)`.  `grouplist`
stands for the result of the `getgrouplist` call. -/
def dropPrivileges (grouplist : List Nat) (uid gid : Nat) (os : OsState) : OsState :=
  { os with groups := grouplist, egid := gid, euid := uid, umask := 0o057 }

/-- Modelled OS behaviour of `write_encruids` (lines 2295-2305): the
`open(encrypted_uids_file, "w")` call, executed by a process whose
effective uid is `os.euid`, succeeds exactly when the filesystem write
permission `perm` holds for that uid.  This is the only part of the
claim that lives in the operating system rather than in the source. -/
def write_encruids_os (perm : Nat → Bool) (os : OsState) : Bool :=
  perm os.euid

/-- One credential-file write attempt observed in a handler run: the
effective uid it was made under and whether it succeeded. -/
structure WriteEvent : Type where
  euid : Nat
  ok : Bool
  deriving DecidableEq

/-- The write attempts performed by the handler's receive loop on a
sequence of coordinator messages (lines 2043-2151): only an
`ENCRUIDS_UPDATE` message triggers `write_encruids` (line 2134), and a
`CLIENT_HANDLER_STOP` message ends the loop (line 2151).  The process
credentials `os` are never modified inside the loop. -/
def handlerWrites (perm : Nat → Bool) (os : OsState) : List OutMsg → List WriteEvent
  | [] => []
  | .clientHandlerStop :: _ => []
  | .encrUpdate _ :: t =>
      ⟨os.euid, write_encruids_os perm os⟩ :: handlerWrites perm os t
  | _ :: t => handlerWrites perm os t

/-- A full client-handler run as far as credential-file writes are
concerned: drop privileges to the peer (lines 2023-2029), then serve
coordinator messages. -/
def client_handler_writes (perm : Nat → Bool) (grouplist : List Nat)
    (uid gid : Nat) (msgs : List OutMsg) : List WriteEvent :=
  handlerWrites perm (dropPrivileges grouplist uid gid rootOs) msgs

/-! ## Shared concrete instances used by witnesses and counterexamples -/

/-- A configuration with the source's default timeouts and an empty
translation table. -/
def cfgD : Config := ⟨60, 60, []⟩

/-- A concrete stand-in for the external `crypt`: `cfD uid stored`
equals `stored` exactly when `uid = "DEADBEEF"`, so the tag `DEADBEEF`
verifies against every stored hash and no other tag verifies. -/
def cfD : String → String → String :=
  fun u s => if u = "DEADBEEF" then s else u ++ s

/-- A concrete stand-in for `mksalt`. -/
def saltsD : Nat → String := fun _ => "SALT"

/-- State exhibiting the claim C1 failure: a non-empty authentication
cache, a loaded credential store with mtime 5, no clients, no pending
active-set change. -/
def stateC1 : ServerState :=
  { ServerState.initial with
      auth_cache := [("alice", true)]
      auth_uids_cache := [("alice", ["DEADBEEF"])]
      encruids := [("alice", "h")]
      encruids_file_mtime := some 5 }

/-! ## Helper lemmas -/

theorem mem_canonicalize {l : List String} {x : String} :
    x ∈ canonicalize l ↔ x ∈ l := by
  unfold canonicalize
  rw [List.mem_dedup, List.mem_insertionSort]

theorem mem_mergeActive {tbl : List (String × String)} {sn : Snapshots}
    {x : String} :
    x ∈ mergeActive tbl sn ↔
      ∃ uid, uid ∈ sn.allUids ∧ translate tbl uid = x := by
  unfold mergeActive
  rw [mem_canonicalize, List.mem_map]

theorem handlerWrites_mem {perm : Nat → Bool} {os : OsState}
    {msgs : List OutMsg} {w : WriteEvent} (h : w ∈ handlerWrites perm os msgs) :
    w.euid = os.euid ∧ w.ok = perm os.euid := by
  induction msgs with
  | nil => simp [handlerWrites] at h
  | cons m t ih =>
      cases m
      case clientHandlerStop => simp [handlerWrites] at h
      case encrUpdate st =>
        rw [handlerWrites] at h
        rcases List.mem_cons.mp h with h1 | h1
        · subst h1; exact ⟨rfl, rfl⟩
        · exact ih h1
      all_goals exact ih h

/-! ## Claim theorems -/

/-- Claim C6: a call of the credential-store load operation returns
`unchanged` and leaves the store alone when the file mtime has not
advanced past the (positive) last-loaded mtime; on any stat / read /
parse / shape failure it empties the in-memory store and returns
`error`; otherwise it replaces the store with the parsed contents,
records the new mtime and returns `reloaded`. -/
theorem claim_C6 (mtime₀ : Option Nat) (encr₀ : Store) :
    (∀ m : Nat, mtime₀ = some m → 0 < m →
      ∀ (file : FileView) (mt : Nat), file.mtime = some mt → mt ≤ m →
        load_encruids file mtime₀ encr₀ = (.unchanged, mtime₀, encr₀)) ∧
    (∀ file : FileView, loadFails file mtime₀ →
      (load_encruids file mtime₀ encr₀).1 = .errorLoad ∧
      (load_encruids file mtime₀ encr₀).2.2 = []) ∧
    (∀ (mt : Nat) (v : PyVal) (l : Store), validateEncruids v = some l →
      ¬(mtimeTruthy mtime₀ = true ∧ mt ≤ mtime₀.getD 0) →
      load_encruids (.readable mt v) mtime₀ encr₀ = (.reloaded, some mt, l)) := by
  refine ⟨?_, ?_, ?_⟩
  · rintro m rfl hpos file mt hmt hle
    have ht : mtimeTruthy (some m) = true := by
      simp [mtimeTruthy]; omega
    cases file with
    | absent => simp [FileView.mtime] at hmt
    | unreadable mt' =>
        simp only [FileView.mtime, Option.some.injEq] at hmt
        subst hmt
        simp [load_encruids, ht, hle]
    | readable mt' v =>
        simp only [FileView.mtime, Option.some.injEq] at hmt
        subst hmt
        simp [load_encruids, ht, hle]
  · rintro file (rfl | ⟨mt, rfl, hc⟩ | ⟨mt, v, rfl, hv, hc⟩)
    · simp [load_encruids]
    · simp [load_encruids, hc]
    · simp [load_encruids, hc, hv]
  · intro mt v l hv hc
    simp [load_encruids, hc, hv]

/-- Witness for claim C6: loading a well-formed empty JSON array with an
advanced mtime replaces the store and reports `reloaded`. -/
theorem claim_C6_witness :
    load_encruids (.readable 7 (.list [])) (some 5) [("a", "b")] =
      (.reloaded, some 7, []) :=
  (claim_C6 (some 5) [("a", "b")]).2.2 7 (.list []) [] rfl (by decide)

/-- Claim C1 (code bug): the claim requires the authentication cache to
be empty after any event in which the credential file was reloaded,
including a reload that fails and empties the in-memory store.  The
code tests `load_encruids() or send_active_uids_update`, and the `None`
returned on a failed reload is falsy, so the cache survives: after this
event the in-memory store has been emptied by the malformed file (mtime
advanced 5 → 10) yet the cache still authenticates `alice`. -/
theorem claim_C1_bug :
    (processEvent cfgD cfD saltsD (.unreadable 10) 0 stateC1 .keepalive).1.encruids
        = [] ∧
    (processEvent cfgD cfD saltsD (.unreadable 10) 0 stateC1 .keepalive).1.auth_cache
        = [("alice", true)] := by
  constructor <;> rfl

/-- Claim C9: every credential-file write performed by a client handler
happens under the peer's effective uid (the handler drops its groups,
gid and uid to the peer's and sets umask 0o057 before serving a single
coordinator message, and never regains privilege), and a run of the
handler can produce a successful write exactly when the filesystem
write permission holds for the peer's uid. -/
theorem claim_C9 (perm : Nat → Bool) (grouplist : List Nat) (uid gid : Nat) :
    (∀ (msgs : List OutMsg) (w : WriteEvent),
      w ∈ client_handler_writes perm grouplist uid gid msgs →
      w.euid = uid ∧ w.ok = perm uid) ∧
    ((∃ (msgs : List OutMsg) (w : WriteEvent),
      w ∈ client_handler_writes perm grouplist uid gid msgs ∧ w.ok = true) ↔
      perm uid = true) := by
  constructor
  · intro msgs w h
    exact handlerWrites_mem h
  · constructor
    · rintro ⟨msgs, w, hmem, hok⟩
      have h2 := handlerWrites_mem hmem
      simp only [dropPrivileges] at h2
      rw [← h2.2, hok]
    · intro hp
      refine ⟨[.encrUpdate []], ⟨uid, perm uid⟩, ?_, hp⟩
      simp [client_handler_writes, handlerWrites, dropPrivileges,
        write_encruids_os, List.mem_singleton]

/-- Witness for claim C9: with a filesystem that lets uid 5 write the
file, the single write of a handler run for peer uid 5 is made under
euid 5 and succeeds. -/
theorem claim_C9_witness :
    (⟨5, true⟩ : WriteEvent).euid = 5 ∧
    (⟨5, true⟩ : WriteEvent).ok = (fun _ : Nat => true) 5 :=
  (claim_C9 (fun _ => true) [] 5 5).1 [.encrUpdate []] ⟨5, true⟩ (by decide)

theorem getA_modifyA {α β : Type} [DecidableEq α] (k : α) (f : β → β) :
    ∀ l : List (α × β), getA k (modifyA k f l) = (getA k l).map f := by
  intro l
  induction l with
  | nil => simp [getA, modifyA]
  | cons p t ih =>
      by_cases h : p.1 = k
      · simp [getA, modifyA, h]
      · simp [getA, modifyA, h, ih]

theorem processEvent_snaps_eq (cfg : Config) (cf : String → String → String)
    (salts : Nat → String) (file : FileView) (now : ℚ) (s : ServerState)
    (m : Msg) :
    (processEvent cfg cf salts file now s m).1.snaps =
      (applyMsg cfg now s m).1.snaps := rfl

theorem processEvent_active_eq (cfg : Config) (cf : String → String → String)
    (salts : Nat → String) (file : FileView) (now : ℚ) (s : ServerState)
    (m : Msg) :
    (processEvent cfg cf salts file now s m).1.active_uids =
      (applyMsg cfg now s m).1.active_uids := rfl

theorem applyMsg_snaps (cfg : Config) (now : ℚ) (s : ServerState) (m : Msg) :
    (applyMsg cfg now s m).1.snaps =
      (match m with
       | .listenerUpdate i uids => s.snaps.set i uids
       | _ => s.snaps) := by
  cases m with
  | listenerUpdate i uids =>
      simp only [applyMsg]
      split <;> rfl
  | keepalive => rfl
  | newClient pid pw => rfl
  | waitauthRequest pid u w => rfl
  | adduserRequest pid u w => rfl
  | deluserRequest pid u w => rfl
  | watchnbuidsRequest pid => rfl
  | watchuidsRequest pid => rfl
  | clientStopRequest pid => rfl

theorem applyMsg_active_inv (cfg : Config) (now : ℚ) (s : ServerState) (m : Msg)
    (h : s.active_uids = mergeActive cfg.uids_translation_table s.snaps) :
    (applyMsg cfg now s m).1.active_uids =
      mergeActive cfg.uids_translation_table (applyMsg cfg now s m).1.snaps := by
  cases m with
  | listenerUpdate i uids =>
      simp only [applyMsg]
      by_cases hne : mergeActive cfg.uids_translation_table (s.snaps.set i uids)
          ≠ s.active_uids
      · rw [if_pos hne]
      · rw [if_neg hne]
        push_neg at hne
        exact hne.symm
  | keepalive => exact h
  | newClient pid pw => exact h
  | waitauthRequest pid u w => exact h
  | adduserRequest pid u w => exact h
  | deluserRequest pid u w => exact h
  | watchnbuidsRequest pid => exact h
  | watchuidsRequest pid => exact h
  | clientStopRequest pid => exact h

theorem runEvents_inv (cfg : Config) (cf : String → String → String) :
    ∀ (evs : List Event) (s : ServerState),
      s.active_uids = mergeActive cfg.uids_translation_table s.snaps →
      (runEvents cfg cf s evs).active_uids =
        mergeActive cfg.uids_translation_table (runEvents cfg cf s evs).snaps := by
  intro evs
  induction evs with
  | nil => intro s h; exact h
  | cons e t ih =>
      intro s h
      rw [runEvents]
      refine ih _ ?_
      rw [processEvent_active_eq, processEvent_snaps_eq]
      exact applyMsg_active_inv cfg e.now s e.msg h

theorem runEvents_snaps (cfg : Config) (cf : String → String → String) :
    ∀ (evs : List Event) (s : ServerState),
      (runEvents cfg cf s evs).snaps = latestSnaps s.snaps evs := by
  intro evs
  induction evs with
  | nil => intro s; rfl
  | cons e t ih =>
      intro s
      rw [runEvents, latestSnaps, ih]
      congr 1
      rw [processEvent_snaps_eq, applyMsg_snaps]

theorem accumLines_line_length (ib kp : Nat → Bool) :
    ∀ (cs buf : List Nat), buf.length ≤ 256 →
      ∀ l ∈ (accumLines ib kp cs buf).1, l.length ≤ 256 := by
  intro cs
  induction cs with
  | nil => intro buf hb l hl; simp [accumLines] at hl
  | cons c cs ih =>
      intro buf hb l hl
      rw [accumLines] at hl
      by_cases h1 : ib c = true
      · rw [if_pos h1] at hl
        rcases List.mem_cons.mp hl with h | h
        · subst h; exact hb
        · exact ih [] (by simp) l h
      · rw [if_neg h1] at hl
        by_cases h2 : buf.length < 256 ∧ kp c = true
        · rw [if_pos h2] at hl
          refine ih (buf ++ [c]) ?_ l hl
          rw [List.length_append, List.length_singleton]
          omega
        · rw [if_neg h2] at hl
          exact ih buf hb l hl

theorem serial_sanitize_length (l : List Nat) :
    (serial_sanitize l).length ≤ l.length := by
  unfold serial_sanitize
  calc ((l.map pyUpperN).filter (· ∈ hexdigitsN)).length
      ≤ (l.map pyUpperN).length := List.length_filter_le _ _
    _ = l.length := List.length_map _ _

theorem serial_sanitize_upperHex {l : List Nat} {c : Nat}
    (h : c ∈ serial_sanitize l) : isUpperHexN c = true := by
  unfold serial_sanitize at h
  have hx := List.mem_filter.mp h
  obtain ⟨c₀, _, rfl⟩ := List.mem_map.mp hx.1
  have hmem : pyUpperN c₀ ∈ hexdigitsN := by simpa using hx.2
  unfold pyUpperN at hmem ⊢
  unfold isUpperHexN
  by_cases hlow : 97 ≤ c₀ ∧ c₀ ≤ 122
  · rw [if_pos hlow] at hmem ⊢
    simp only [hexdigitsN, List.mem_cons, List.not_mem_nil, or_false] at hmem
    simp only [upperHexN, List.mem_cons, List.not_mem_nil, or_false,
      decide_eq_true_eq]
    omega
  · rw [if_neg hlow] at hmem ⊢
    simp only [hexdigitsN, List.mem_cons, List.not_mem_nil, or_false] at hmem
    simp only [upperHexN, List.mem_cons, List.not_mem_nil, or_false,
      decide_eq_true_eq]
    omega

theorem pyUpperN_upperAlnum {c : Nat} (h : pyIsAlnumN c = true) :
    isUpperAlnumN (pyUpperN c) = true := by
  simp only [pyIsAlnumN, decide_eq_true_eq] at h
  unfold pyUpperN isUpperAlnumN
  by_cases hlow : 97 ≤ c ∧ c ≤ 122
  · rw [if_pos hlow]
    simp only [decide_eq_true_eq]
    omega
  · rw [if_neg hlow]
    simp only [decide_eq_true_eq]
    omega

/-- Claim C8 (counterexample): the raw Chameleon line `"0z"` (code
points 48, 122) matches `^[0-9a-zA-Z]+$`, so the listener takes its
uppercasing `"0Z"` (48, 90) as the UID; that UID contains the
non-hexadecimal character `Z`, and differs from the serial listener's
strip-non-hex-and-uppercase sanitization of the same line, which yields
`"0"`. -/
theorem claim_C8_cex :
    chameleon_uid_of_line [48, 122] = some [48, 90] ∧
    ¬([48, 90].all isUpperHexN = true) ∧
    serial_sanitize [48, 122] = [48] := by
  refine ⟨by decide, by decide, by decide⟩

/-- Claim C8 as amended: for any reader byte stream, every line the
serial listener assembles (buffer capped at 256 printable characters)
sanitizes to a UID of length at most 256 consisting only of uppercase
hexadecimal characters, obtained by removing non-hexadecimal characters
and uppercasing; the Chameleon listener instead takes any whole
assembled line that is entirely alphanumeric and merely uppercases it,
so its UIDs have length at most 256 and consist of uppercase
alphanumeric - but not necessarily hexadecimal - characters. -/
theorem claim_C8_amended (ib kp : Nat → Bool) (cs buf : List Nat)
    (hbuf : buf.length ≤ 256) :
    (∀ l ∈ (accumLines ib kp cs buf).1,
      (serial_sanitize l).length ≤ 256 ∧
      ∀ c ∈ serial_sanitize l, isUpperHexN c = true) ∧
    (∀ l ∈ (accumLines ib kp cs buf).1, ∀ u,
      chameleon_uid_of_line l = some u →
      u = l.map pyUpperN ∧ u.length ≤ 256 ∧
      ∀ c ∈ u, isUpperAlnumN c = true) := by
  constructor
  · intro l hl
    refine ⟨?_, fun c hc => serial_sanitize_upperHex hc⟩
    calc (serial_sanitize l).length ≤ l.length := serial_sanitize_length l
      _ ≤ 256 := accumLines_line_length ib kp cs buf hbuf l hl
  · intro l hl u hu
    unfold chameleon_uid_of_line at hu
    by_cases hok : l ≠ [] ∧ l.all pyIsAlnumN = true
    · rw [if_pos hok] at hu
      obtain rfl : l.map pyUpperN = u := by injection hu
      refine ⟨rfl, ?_, ?_⟩
      · rw [List.length_map]
        exact accumLines_line_length ib kp cs buf hbuf l hl
      · intro c hc
        obtain ⟨c₀, hc₀, rfl⟩ := List.mem_map.mp hc
        exact pyUpperN_upperAlnum (List.all_eq_true.mp hok.2 c₀ hc₀)
    · rw [if_neg hok] at hu
      exact absurd hu (by simp)

/-- Witness for claim C8 as amended: the stream `"AB\n"` (65, 66, 10)
with line break `\n` and all characters kept assembles the single line
`"AB"`, whose serial sanitization is itself: length at most 256 and all
uppercase hexadecimal. -/
theorem claim_C8_amended_witness :
    (serial_sanitize [65, 66]).length ≤ 256 ∧
    ∀ c ∈ serial_sanitize [65, 66], isUpperHexN c = true :=
  (claim_C8_amended (fun c => c == 10) (fun _ => true) [65, 66, 10] []
    (by decide)).1 [65, 66] (by decide)

/-- Claim C2: over any sequence of inbox deliveries starting from the
initial server state, the coordinator's active-UID list contains exactly
the UIDs obtained by taking the most recent snapshot of every listener,
rewriting each UID through the configured translation table, and uniting
the results (the list is duplicate-free by construction of
`canonicalize`, so this membership characterization is the set-level
statement of the claim). -/
theorem claim_C2 (cfg : Config) (cf : String → String → String)
    (evs : List Event) (x : String) :
    x ∈ (runEvents cfg cf ServerState.initial evs).active_uids ↔
      ∃ uid, uid ∈ (latestSnaps Snapshots.initial evs).allUids ∧
        translate cfg.uids_translation_table uid = x := by
  rw [runEvents_inv cfg cf evs ServerState.initial rfl, runEvents_snaps,
    mem_mergeActive]
  rfl

/-- Claim C3: a terminal reply to a WAITAUTH request (computed fresh,
i.e. with no cached entry for the requested user) carries the list of
matching UIDs exactly when the authentication succeeded and the
requested user equals the peer's own username; in every other case the
reply carries no UIDs; and the reply is positive exactly when some
active UID verifies against a stored entry for the requested user. -/
theorem claim_C3 (cfg : Config) (cf : String → String → String)
    (salt : String) (now : ℚ) (active : List String)
    (prev : Option (List String)) (sendU : Bool) (encr : Store)
    (cache : List (String × Bool)) (ucache : List (String × List String))
    (c : Client) (hreq : c.request = some .waitauth)
    (hmiss : getA c.user cache = none)
    (hfct : 0 < cfg.client_force_close_socket_timeout) :
    ∀ (ok : Bool) (u : Option (List String)),
      OutMsg.authResult ok u ∈
        (processClient cfg cf salt false now active prev sendU encr cache ucache c).out →
      (u = if ok = true ∧ c.user = c.pw_name
           then some (computeAuthUids cf encr c.user active) else none) ∧
      (ok = true ↔ computeAuthUids cf encr c.user active ≠ []) := by
  obtain ⟨pw, req, user, exp, nr⟩ := c
  simp only at hreq hmiss
  subst hreq
  have hno2 : ¬ cfg.client_force_close_socket_timeout ≤ 0 := not_le.mpr hfct
  intro ok u hmem
  by_cases hu : computeAuthUids cf encr user active = []
  · by_cases hto : expiredB now exp = true
    · simp [processClient, voidExpiredB, hmiss, hu, hto, hno2] at hmem
      obtain ⟨rfl, rfl⟩ := hmem
      simp [hu]
    · simp [processClient, hmiss, hu, hto] at hmem
  · simp [processClient, voidExpiredB, hmiss, hu, hno2] at hmem
    obtain ⟨rfl, rfl⟩ := hmem
    simp [hu]

/-- Witness for claim C3: peer `alice` authenticating herself with the
active tag `DEADBEEF` registered for `alice` receives the matching UIDs
alongside the positive reply. -/
theorem claim_C3_witness :
    (some ["DEADBEEF"] =
      if (true : Bool) = true ∧ "alice" = "alice"
      then some (computeAuthUids cfD [("alice", "h")] "alice" ["DEADBEEF"])
      else none) ∧
    ((true : Bool) = true ↔
      computeAuthUids cfD [("alice", "h")] "alice" ["DEADBEEF"] ≠ []) :=
  claim_C3 cfgD cfD "SALT" 0 ["DEADBEEF"] none false [("alice", "h")] [] []
    ⟨"alice", some .waitauth, "alice", none, false⟩ rfl rfl (by decide) true
    (some ["DEADBEEF"]) (by decide)

/-- Claim C4: an ADDUSER request processed with exactly one active UID
replies `EncrUpdateErrExists` when some stored entry for the requested
user verifies against that UID, and otherwise proposes the old store
with one fresh-salted entry appended at the end; in both cases the
session becomes Void with expiry `now` plus the force-close timeout;
and with zero or several active UIDs the request never produces a
proposed store. -/
theorem claim_C4 (cfg : Config) (cf : String → String → String)
    (salt : String) (now : ℚ) (active : List String)
    (prev : Option (List String)) (sendU : Bool) (encr : Store)
    (cache : List (String × Bool)) (ucache : List (String × List String))
    (c : Client) (hreq : c.request = some .adduser)
    (hfct : 0 < cfg.client_force_close_socket_timeout) :
    (∀ x : String, active = [x] →
      ((∃ e ∈ encr, e.1 = c.user ∧ cf x e.2 = e.2) →
        (processClient cfg cf salt false now active prev sendU encr cache ucache c).out
          = [.encrUpdateErrExists] ∧
        (processClient cfg cf salt false now active prev sendU encr cache ucache c).client.request
          = some .void ∧
        (processClient cfg cf salt false now active prev sendU encr cache ucache c).client.expires
          = some (now + cfg.client_force_close_socket_timeout)) ∧
      (¬(∃ e ∈ encr, e.1 = c.user ∧ cf x e.2 = e.2) →
        (processClient cfg cf salt false now active prev sendU encr cache ucache c).out
          = [.encrUpdate (encr ++ [(c.user, cf x salt)])] ∧
        (processClient cfg cf salt false now active prev sendU encr cache ucache c).client.request
          = some .void ∧
        (processClient cfg cf salt false now active prev sendU encr cache ucache c).client.expires
          = some (now + cfg.client_force_close_socket_timeout))) ∧
    (active.length ≠ 1 →
      ∀ st : Store, OutMsg.encrUpdate st ∉
        (processClient cfg cf salt false now active prev sendU encr cache ucache c).out) := by
  obtain ⟨pw, req, user, exp, nr⟩ := c
  simp only at hreq
  subst hreq
  have hno : ¬ now ≥ now + cfg.client_force_close_socket_timeout := by linarith
  have hno2 : ¬ cfg.client_force_close_socket_timeout ≤ 0 := not_le.mpr hfct
  constructor
  · rintro x rfl
    constructor
    · intro hex
      have hany : (encr.any fun e => decide (e.1 = user ∧ cf x e.2 = e.2)) = true := by
        simp only [List.any_eq_true, decide_eq_true_eq]
        obtain ⟨e, he, h1, h2⟩ := hex
        exact ⟨e, he, h1, h2⟩
      refine ⟨?_, ?_, ?_⟩ <;>
        · simp [processClient, voidExpiredB, hno]
          rw [hany]
          simp [hno2]
    · intro hex
      have hany : (encr.any fun e => decide (e.1 = user ∧ cf x e.2 = e.2)) = false := by
        simp only [List.any_eq_false, decide_eq_true_eq]
        intro e he hcontra
        exact hex ⟨e, he, hcontra⟩
      refine ⟨?_, ?_, ?_⟩ <;>
        · simp [processClient, voidExpiredB, hno]
          rw [hany]
          simp [hno2]
  · intro hlen st
    by_cases hto : expiredB now exp = true
    · simp [processClient, hlen, hto]
    · simp [processClient, hlen, hto]

/-- Witness for claim C4: adding `carol` with the single active UID
`AA` and an empty store proposes the one-entry store hashed under the
fresh salt and parks the session in Void. -/
theorem claim_C4_witness :
    (processClient cfgD cfD "SALT" false 0 ["AA"] none false [] [] []
      ⟨"carol", some .adduser, "carol", some 100, false⟩).out
      = [.encrUpdate ([] ++ [("carol", cfD "AA" "SALT")])] ∧
    (processClient cfgD cfD "SALT" false 0 ["AA"] none false [] [] []
      ⟨"carol", some .adduser, "carol", some 100, false⟩).client.request
      = some .void ∧
    (processClient cfgD cfD "SALT" false 0 ["AA"] none false [] [] []
      ⟨"carol", some .adduser, "carol", some 100, false⟩).client.expires
      = some (0 + cfgD.client_force_close_socket_timeout) :=
  ((claim_C4 cfgD cfD "SALT" 0 ["AA"] none false [] [] []
    ⟨"carol", some .adduser, "carol", some 100, false⟩ rfl (by decide)).1
      "AA" rfl).2 (by simp)

/-- Claim C5: a DELUSER request with negative wait (delete-all)
processed by the coordinator proposes exactly the entries of the old
store whose username differs from the requested user, in their original
relative order; the session is sent `EncrUpdate` with that store when at
least one entry matched and `EncrUpdateErrNone` otherwise, and then
becomes Void with expiry `now` plus the force-close timeout. -/
theorem claim_C5 (cfg : Config) (cf : String → String → String)
    (salt : String) (now : ℚ) (active : List String)
    (prev : Option (List String)) (sendU : Bool) (encr : Store)
    (cache : List (String × Bool)) (ucache : List (String × List String))
    (c : Client) (hreq : c.request = some .deluser) (hexp : c.expires = none)
    (hfct : 0 < cfg.client_force_close_socket_timeout) :
    (processClient cfg cf salt false now active prev sendU encr cache ucache c).out
      = (if encr.any (fun e => decide (e.1 = c.user))
         then [.encrUpdate (encr.filter (fun e => decide (e.1 ≠ c.user)))]
         else [.encrUpdateErrNone]) ∧
    (processClient cfg cf salt false now active prev sendU encr cache ucache c).client.request
      = some .void ∧
    (processClient cfg cf salt false now active prev sendU encr cache ucache c).client.expires
      = some (now + cfg.client_force_close_socket_timeout) := by
  obtain ⟨pw, req, user, exp, nr⟩ := c
  simp only at hreq hexp
  subst hreq
  subst hexp
  have hno : ¬ now ≥ now + cfg.client_force_close_socket_timeout := by linarith
  simp [processClient, voidExpiredB, hno]
  simp only [show ∀ e : String × String,
      (decide (e.1 = user ∧ (True ∨ cf (active.headD "") e.2 = e.2)))
        = decide (e.1 = user) from fun e => by simp]

/-- Witness for claim C5: deleting all entries of `dave` from a store
holding one `dave` entry and one `erin` entry proposes the store with
only the `erin` entry, in place. -/
theorem claim_C5_witness :
    (processClient cfgD cfD "SALT" false 0 [] none false
      [("dave", "h1"), ("erin", "h2")] [] []
      ⟨"dave", some .deluser, "dave", none, false⟩).out
      = [.encrUpdate [("erin", "h2")]] ∧
    (processClient cfgD cfD "SALT" false 0 [] none false
      [("dave", "h1"), ("erin", "h2")] [] []
      ⟨"dave", some .deluser, "dave", none, false⟩).client.request
      = some .void ∧
    (processClient cfgD cfD "SALT" false 0 [] none false
      [("dave", "h1"), ("erin", "h2")] [] []
      ⟨"dave", some .deluser, "dave", none, false⟩).client.expires
      = some (0 + cfgD.client_force_close_socket_timeout) :=
  claim_C5 cfgD cfD "SALT" 0 [] none false [("dave", "h1"), ("erin", "h2")]
    [] [] ⟨"dave", some .deluser, "dave", none, false⟩ rfl rfl (by decide)

/-- Claim C7 (counterexample): a freshly lodged WATCHUIDS session
(`new_request` set) receives no `UidsUpdate` on the next non-keepalive
event when the active-UID list has never changed since server start
(`active_uids_prev` is still `None`), and `new_request` stays set - the
code requires `active_uids_prev != None` before honouring `is_new`. -/
theorem claim_C7_cex :
    (processEvent cfgD cfD saltsD .absent 0
      { ServerState.initial with
          active_clients := [(1, ⟨"root", some .watchuids, "", none, true⟩)] }
      (.listenerUpdate .pcsc [])).2 = [] ∧
    (processEvent cfgD cfD saltsD .absent 0
      { ServerState.initial with
          active_clients := [(1, ⟨"root", some .watchuids, "", none, true⟩)] }
      (.listenerUpdate .pcsc [])).1.active_clients
      = [(1, ⟨"root", some .watchuids, "", none, true⟩)] := by
  constructor <;> rfl

/-- Claim C7 as amended: a session whose request has just become
WatchUids (`new_request` set) is sent a `UidsUpdate` carrying the
current active-UID list on the next processed non-keepalive event, and
`new_request` is cleared - provided the active-UID list has changed at
least once since server start (`active_uids_prev` is set); when it has
never changed, nothing is sent and `new_request` remains set. -/
theorem claim_C7_amended (cfg : Config) (cf : String → String → String)
    (salt : String) (now : ℚ) (active : List String)
    (prev : Option (List String)) (sendU : Bool) (encr : Store)
    (cache : List (String × Bool)) (ucache : List (String × List String))
    (c : Client) (hreq : c.request = some .watchuids)
    (hnew : c.new_request = true) :
    (prev ≠ none →
      (processClient cfg cf salt false now active prev sendU encr cache ucache c).out
        = [.uidsUpdate active] ∧
      (processClient cfg cf salt false now active prev sendU encr cache ucache c).client.new_request
        = false) ∧
    (prev = none →
      (processClient cfg cf salt false now active prev sendU encr cache ucache c).out
        = [] ∧
      (processClient cfg cf salt false now active prev sendU encr cache ucache c).client.new_request
        = true) := by
  obtain ⟨pw, req, user, exp, nr⟩ := c
  simp only [Client.mk.injEq] at hreq hnew ⊢
  subst hreq
  subst hnew
  constructor
  · intro hprev
    constructor
    · simp [processClient, hprev]
    · simp [processClient, hprev]
  · intro hprev
    subst hprev
    constructor
    · simp [processClient]
    · simp [processClient]

/-- Witness for claim C7 as amended: with one recorded previous
active-UID list, a fresh WATCHUIDS session is sent the current list and
has `new_request` cleared. -/
theorem claim_C7_amended_witness :
    (processClient cfgD cfD "SALT" false 0 ["AA"] (some []) false [] [] []
      ⟨"root", some .watchuids, "", none, true⟩).out
      = [.uidsUpdate ["AA"]] ∧
    (processClient cfgD cfD "SALT" false 0 ["AA"] (some []) false [] [] []
      ⟨"root", some .watchuids, "", none, true⟩).client.new_request
      = false :=
  (claim_C7_amended cfgD cfD "SALT" 0 ["AA"] (some []) false [] [] []
    ⟨"root", some .watchuids, "", none, true⟩ rfl rfl).1 (by simp)

/-- Claim C10: a WAITAUTH request with negative wait has its expiry set
to `None` by the dispatch, and - shown here for a session table holding
exactly the requesting session, with no cached entry for the requested
user - the coordinator replies within the same request event: a positive
result exactly when some currently active UID verifies against a stored
entry for the requested user, with the matching UIDs included only for a
self-request. -/
theorem claim_C10 (cfg : Config) (cf : String → String → String)
    (salts : Nat → String) (file : FileView) (now : ℚ) (s : ServerState)
    (pid : Nat) (u : String) (w : ℚ) (c : Client) (hw : w < 0)
    (hfct : 0 < cfg.client_force_close_socket_timeout) :
    (getA pid s.active_clients = some c →
      getA pid (applyMsg cfg now s (.waitauthRequest pid u w)).1.active_clients =
        some { c with request := some .waitauth, user := u, expires := none }) ∧
    (s.active_clients = [(pid, c)] → getA u s.auth_cache = none →
      (processEvent cfg cf salts file now s (.waitauthRequest pid u w)).2 =
        [(pid, .authResult
          (decide (computeAuthUids cf
            (load_encruids file s.encruids_file_mtime s.encruids).2.2 u
            s.active_uids ≠ []))
          (if computeAuthUids cf
                (load_encruids file s.encruids_file_mtime s.encruids).2.2 u
                s.active_uids ≠ [] ∧ u = c.pw_name
           then some (computeAuthUids cf
                (load_encruids file s.encruids_file_mtime s.encruids).2.2 u
                s.active_uids)
           else none))]) := by
  have hre : requestExpiry cfg now w = none := by
    simp [requestExpiry, hw]
  have hno2 : ¬ cfg.client_force_close_socket_timeout ≤ 0 := not_le.mpr hfct
  constructor
  · intro hc
    simp [applyMsg, getA_modifyA, hc, hre]
  · intro hcl hcache
    simp [processEvent, applyMsg, hcl, modifyA, foldClients, hre]
    by_cases hwipe : loadTruthy (load_encruids file s.encruids_file_mtime s.encruids).1 = true ∨
        s.send_active_uids_update = true
    · simp [hwipe, processClient, getA, expiredB, voidExpiredB, hno2]
    · simp [hwipe, processClient, expiredB, voidExpiredB, hno2, hcache]

/-- Witness for claim C10: peer `alice` lodging `WAITAUTH alice -1`
with active tag `DEADBEEF` registered for `alice` (file unchanged on
disk) is answered positively, with the UID disclosed, in the very event
that delivered the request. -/
theorem claim_C10_witness :
    (processEvent cfgD cfD saltsD (.unreadable 3) 0
      { ServerState.initial with
          active_clients := [(7, ⟨"alice", some .void, "", some 100, false⟩)]
          active_uids := ["DEADBEEF"]
          encruids := [("alice", "h")]
          encruids_file_mtime := some 5 }
      (.waitauthRequest 7 "alice" (-1))).2
      = [(7, .authResult true (some ["DEADBEEF"]))] :=
  (claim_C10 cfgD cfD saltsD (.unreadable 3) 0
    { ServerState.initial with
        active_clients := [(7, ⟨"alice", some .void, "", some 100, false⟩)]
        active_uids := ["DEADBEEF"]
        encruids := [("alice", "h")]
        encruids_file_mtime := some 5 }
    7 "alice" (-1) ⟨"alice", some .void, "", some 100, false⟩
    (by decide) (by decide)).2 rfl rfl

end PPNFC
